import Mathlib

/-!
Verification of the TorchSlime handler-engine core against its specification.

The development shallowly embeds the relevant parts of the repository:

- association lists model Python object attribute dictionaries, with the
  NOTHING sentinel as the default of a missing attribute
  (torchslime/utils/bases.py, class Base);
- ScopedAttrAssign and ScopedAttrRestore (torchslime/utils/bases.py) become
  explicit enter/exit state transformers with an error-catching write-back
  fold mirroring the try/except in the Python source;
- AttrObservable (torchslime/utils/bases.py) becomes a record of the two
  subscription maps plus the attribute dictionary, and attribute writes
  return the list of emitted notifications;
- DistributedLaunch.handler_call (torchslime/core/hooks/launch.py) is
  embedded together with Python local-variable scoping, because the source
  reads the local exec_ranks before its only assignment;
- BackwardHandler, OptimizerContainer and StepIterationContainer
  (src/torchslime/handler/common.py) become arithmetic step functions and a
  terminating loop function;
- TorchComm.all_gather_object / gather_object (torchslime/util/__init__.py)
  become list-level padding and truncation pipelines parameterized by an
  abstract serializer.
-/

namespace TorchSlime

/-- Python attribute values as stored on the objects the claims touch.
The constructor nothing is the NOTHING sentinel of torchslime, pyNone is
the Python None singleton. -/
inductive Val where
  | nothing
  | pyNone
  | nat (n : Nat)
  | int (n : Int)
  | str (s : String)
  deriving DecidableEq, Repr

/-- Association-list lookup, modelling Python dict item access. -/
def alookup [DecidableEq κ] : List (κ × α) → κ → Option α
  | [], _ => Option.none
  | (k, v) :: rest, a => if k = a then Option.some v else alookup rest a

/-- Association-list update-or-append, modelling Python dict item assignment
(and attribute assignment on an object dictionary). -/
def aset [DecidableEq κ] : List (κ × α) → κ → α → List (κ × α)
  | [], a, v => [(a, v)]
  | (k, w) :: rest, a, v =>
      if k = a then (k, v) :: rest else (k, w) :: aset rest a v

/-- Association-list key deletion, modelling the Python del statement on a
dict whose keys are unique. -/
def aerase [DecidableEq κ] : List (κ × α) → κ → List (κ × α)
  | [], _ => []
  | (k, w) :: rest, a => if k = a then rest else (k, w) :: aerase rest a

theorem alookup_aset_self [DecidableEq κ] (l : List (κ × α)) (a : κ) (v : α) :
    alookup (aset l a v) a = Option.some v := by
  induction l with
  | nil => simp [aset, alookup]
  | cons p rest ih =>
      obtain ⟨k, w⟩ := p
      by_cases hk : k = a
      · simp [aset, hk, alookup]
      · simp [aset, hk, alookup, ih]

theorem alookup_aset_ne [DecidableEq κ] (l : List (κ × α)) (a b : κ) (v : α)
    (h : b ≠ a) : alookup (aset l a v) b = alookup l b := by
  induction l with
  | nil => simp [aset, alookup, Ne.symm h]
  | cons p rest ih =>
      obtain ⟨k, w⟩ := p
      by_cases hk : k = a
      · subst hk
        simp [aset, alookup, Ne.symm h]
      · by_cases hb : k = b
        · subst hb
          simp [aset, hk, alookup]
        · simp [aset, hk, alookup, hb, ih]

/-- A Python object, reduced to its attribute dictionary. -/
def Obj : Type := List (String × Val)

instance : DecidableEq Obj := by
  unfold Obj
  infer_instance

/-- Python getattr(obj, attr, NOTHING), the snapshot read used by
ScopedAttrRestore.__enter__ in torchslime/utils/bases.py. -/
def getattrD (o : Obj) (a : String) : Val :=
  (alookup o a).getD Val.nothing

/-- Python hasattr for the plain attribute-dictionary model. -/
def pyHasattr (o : Obj) (a : String) : Bool :=
  (alookup o a).isSome

/-- Python setattr on a target whose class may reject some writes by
raising; the reject predicate says which writes raise. -/
def pySetattr (reject : String → Val → Bool) (o : Obj) (a : String) (v : Val) :
    Except Unit Obj :=
  if reject a v then Except.error () else Except.ok (aset o a v)

/-- The write-back loop shared by ScopedAttrAssign.__enter__ and
ScopedAttrRestore.__exit__: each setattr is wrapped in try/except, a raise
is logged and the loop continues with the object unchanged by that write. -/
def trySetAll (reject : String → Val → Bool) (o : Obj)
    (l : List (String × Val)) : Obj :=
  l.foldl
    (fun acc p =>
      match pySetattr reject acc p.1 p.2 with
      | Except.ok next => next
      | Except.error _ => acc)
    o

/-- The snapshot taken by ScopedAttrRestore.__enter__: for every attribute
name the current value, with NOTHING as the default for a missing one. -/
def snapshotAttrs (o : Obj) (attrs : List String) : List (String × Val) :=
  attrs.map (fun a => (a, getattrD o a))

/-- ScopedAttrAssign around a body: snapshot the attributes named by the
keyword arguments, assign the new values (each write caught), run the body
(which returns the mutated object and an optional exception it raised), and
on exit write the snapshot back with the catching loop, passing the body
outcome through unchanged. -/
def ScopedAttrAssign.run (reject : String → Val → Bool)
    (kwargs : List (String × Val)) (body : Obj → Obj × Option ε) (o : Obj) :
    Obj × Option ε :=
  let prev := snapshotAttrs o (kwargs.map Prod.fst)
  let entered := trySetAll reject o kwargs
  let res := body entered
  (trySetAll reject res.1 prev, res.2)

/-- ScopedAttrRestore around a body: snapshot the named attributes, run the
body, and on exit write the snapshot back with the catching loop. -/
def ScopedAttrRestore.run (reject : String → Val → Bool)
    (attrs : List String) (body : Obj → Obj × Option ε) (o : Obj) :
    Obj × Option ε :=
  let prev := snapshotAttrs o attrs
  let res := body o
  (trySetAll reject res.1 prev, res.2)

theorem trySetAll_alookup_notmem (reject : String → Val → Bool)
    (l : List (String × Val)) (o : Obj) (a : String)
    (hm : a ∉ l.map Prod.fst) :
    alookup (trySetAll reject o l) a = alookup o a := by
  induction l generalizing o with
  | nil => rfl
  | cons p rest ih =>
      obtain ⟨b, w⟩ := p
      have hab : a ≠ b := by
        intro hc
        exact hm (by simp [hc])
      have hrest : a ∉ rest.map Prod.fst := by
        intro hc
        exact hm (by simp [hc])
      show alookup (trySetAll reject _ rest) a = alookup o a
      rw [ih _ hrest]
      unfold pySetattr
      by_cases hr : reject b w
      · simp [hr]
      · simp [hr, alookup_aset_ne o b a w hab]

theorem trySetAll_alookup_mem (reject : String → Val → Bool)
    (l : List (String × Val)) (o : Obj) (a : String) (v : Val)
    (hnd : (l.map Prod.fst).Nodup) (hm : (a, v) ∈ l)
    (hr : reject a v = false) :
    alookup (trySetAll reject o l) a = Option.some v := by
  induction l generalizing o with
  | nil => cases hm
  | cons p rest ih =>
      obtain ⟨b, w⟩ := p
      rcases List.mem_cons.mp hm with hhead | htail
      · obtain ⟨hb, hw⟩ := Prod.mk.injEq .. ▸ hhead
        subst hb
        subst hw
        have hnotin : a ∉ rest.map Prod.fst := by
          have := hnd
          simp only [List.map_cons, List.nodup_cons] at this
          exact this.1
        show alookup (trySetAll reject _ rest) a = Option.some v
        rw [trySetAll_alookup_notmem reject rest _ a hnotin]
        unfold pySetattr
        simp [hr, alookup_aset_self]
      · have hndrest : (rest.map Prod.fst).Nodup := by
          have := hnd
          simp only [List.map_cons, List.nodup_cons] at this
          exact this.2
        exact ih _ hndrest htail

theorem snapshotAttrs_map_fst (o : Obj) (attrs : List String) :
    (snapshotAttrs o attrs).map Prod.fst = attrs := by
  unfold snapshotAttrs
  simp [Function.comp_def]

theorem snapshotAttrs_mem (o : Obj) (attrs : List String) (a : String)
    (ha : a ∈ attrs) : (a, getattrD o a) ∈ snapshotAttrs o attrs := by
  unfold snapshotAttrs
  exact List.mem_map.mpr ⟨a, ha, rfl⟩

theorem scopedAssign_run_alookup (reject : String → Val → Bool)
    (hr : ∀ a v, reject a v = false) (kwargs : List (String × Val))
    (hnd : (kwargs.map Prod.fst).Nodup) (body : Obj → Obj × Option ε)
    (o : Obj) (a : String) (ha : a ∈ kwargs.map Prod.fst) :
    alookup (ScopedAttrAssign.run reject kwargs body o).1 a
      = Option.some (getattrD o a) := by
  unfold ScopedAttrAssign.run
  exact trySetAll_alookup_mem reject _ _ a (getattrD o a)
    (by rw [snapshotAttrs_map_fst]; exact hnd)
    (snapshotAttrs_mem o _ a ha) (hr a _)

theorem scopedAssign_run_restores (reject : String → Val → Bool)
    (hr : ∀ a v, reject a v = false) (kwargs : List (String × Val))
    (hnd : (kwargs.map Prod.fst).Nodup) (body : Obj → Obj × Option ε)
    (o : Obj) (a : String) (ha : a ∈ kwargs.map Prod.fst) :
    getattrD (ScopedAttrAssign.run reject kwargs body o).1 a
      = getattrD o a := by
  unfold getattrD
  rw [scopedAssign_run_alookup reject hr kwargs hnd body o a ha]
  rfl

/-- Claim C1: after a ScopedAttrAssign scope exits, whether its body
completed normally or raised an exception, every assigned attribute equals
its value from just before the scope was entered; and for two nested
scopes overlapping on the same attribute, the inner scope exit restores
the intermediate value written by the outer scope, and the outer scope
exit then restores the original value, in strict LIFO order. -/
theorem c1_scopedAttrAssign_restores_lifo {ε : Type}
    (reject : String → Val → Bool) (hr : ∀ a v, reject a v = false)
    (kwargs1 kwargs2 : List (String × Val))
    (h1 : (kwargs1.map Prod.fst).Nodup) (h2 : (kwargs2.map Prod.fst).Nodup)
    (inner body : Obj → Obj × Option ε) (o : Obj) :
    (∀ a, a ∈ kwargs1.map Prod.fst →
        getattrD (ScopedAttrAssign.run reject kwargs1 body o).1 a
          = getattrD o a)
    ∧ (∀ a v1, (a, v1) ∈ kwargs1 → a ∈ kwargs2.map Prod.fst →
        getattrD (ScopedAttrAssign.run reject kwargs2 inner
          (trySetAll reject o kwargs1)).1 a = v1)
    ∧ (∀ a, a ∈ kwargs1.map Prod.fst →
        getattrD (ScopedAttrAssign.run reject kwargs1
          (ScopedAttrAssign.run reject kwargs2 inner) o).1 a
          = getattrD o a) := by
  refine ⟨?_, ?_, ?_⟩
  · intro a ha
    exact scopedAssign_run_restores reject hr kwargs1 h1 body o a ha
  · intro a v1 hmem ha2
    rw [scopedAssign_run_restores reject hr kwargs2 h2 inner
      (trySetAll reject o kwargs1) a ha2]
    unfold getattrD
    rw [trySetAll_alookup_mem reject kwargs1 o a v1 h1 hmem (hr a v1)]
    rfl
  · intro a ha
    exact scopedAssign_run_restores reject hr kwargs1 h1
      (ScopedAttrAssign.run reject kwargs2 inner) o a ha

/-- Witness for C1 at concrete inputs: the outer scope assigns x to 1, the
inner scope assigns x to 2 and its body overwrites x and raises; after the
nested scopes exit, x is back to its original absent-sentinel reading. -/
theorem c1_witness :
    getattrD (ScopedAttrAssign.run (fun _ _ => false) [("x", Val.nat 1)]
      (ScopedAttrAssign.run (fun _ _ => false) [("x", Val.nat 2)]
        (fun t => (aset t "x" (Val.nat 99), Option.some ())))
      ([] : Obj)).1 "x" = getattrD ([] : Obj) "x" :=
  (c1_scopedAttrAssign_restores_lifo (fun _ _ => false) (fun _ _ => rfl)
    [("x", Val.nat 1)] [("x", Val.nat 2)] (by decide) (by decide)
    (fun t => (aset t "x" (Val.nat 99), Option.some ()))
    (fun t => (t, Option.some ())) []).2.2 "x" (by decide)

/-- Claim C8: the catching write-back of ScopedAttrRestore.__exit__ never
re-raises a restoration failure: the protected body outcome (its final
state and optional exception) passes through the guard unchanged, and
every snapshot write-back whose setattr does not raise is still performed
even when other write-backs raise. -/
theorem c8_scopedAttrRestore_exit_suppresses {ε : Type}
    (reject : String → Val → Bool) (attrs : List String)
    (hnd : attrs.Nodup) (body : Obj → Obj × Option ε) (o : Obj) :
    (ScopedAttrRestore.run reject attrs body o).2 = (body o).2
    ∧ (∀ a, a ∈ attrs → reject a (getattrD o a) = false →
        getattrD (ScopedAttrRestore.run reject attrs body o).1 a
          = getattrD o a) := by
  constructor
  · rfl
  · intro a ha hrej
    unfold ScopedAttrRestore.run getattrD
    rw [trySetAll_alookup_mem reject _ _ a (getattrD o a)
      (by rw [snapshotAttrs_map_fst]; exact hnd)
      (snapshotAttrs_mem o _ a ha) hrej]
    rfl

/-- Witness for C8 at concrete inputs: the target rejects every write to x,
the body overwrites x and y and raises; exit still restores y to its
snapshot value and the body exception is the guard result. -/
theorem c8_witness :
    (ScopedAttrRestore.run (fun a _ => a == "x") ["x", "y"]
      (fun t => (aset (aset t "x" (Val.nat 5)) "y" (Val.nat 6),
        Option.some ()))
      [("x", Val.nat 1), ("y", Val.nat 2)]).2
      = ((fun (t : Obj) => (aset (aset t "x" (Val.nat 5)) "y" (Val.nat 6),
        Option.some ()))
        [("x", Val.nat 1), ("y", Val.nat 2)]).2
    ∧ getattrD (ScopedAttrRestore.run (fun a _ => a == "x") ["x", "y"]
      (fun t => (aset (aset t "x" (Val.nat 5)) "y" (Val.nat 6),
        Option.some ()))
      [("x", Val.nat 1), ("y", Val.nat 2)]).1 "y"
      = getattrD [("x", Val.nat 1), ("y", Val.nat 2)] "y" :=
  ⟨(c8_scopedAttrRestore_exit_suppresses (fun a _ => a == "x") ["x", "y"]
      (by decide)
      (fun t => (aset (aset t "x" (Val.nat 5)) "y" (Val.nat 6),
        Option.some ()))
      [("x", Val.nat 1), ("y", Val.nat 2)]).1,
   (c8_scopedAttrRestore_exit_suppresses (fun a _ => a == "x") ["x", "y"]
      (by decide)
      (fun t => (aset (aset t "x" (Val.nat 5)) "y" (Val.nat 6),
        Option.some ()))
      [("x", Val.nat 1), ("y", Val.nat 2)]).2 "y" (by decide) (by decide)⟩

/-- Claim C9: a scoped assign over an attribute absent on the target
before entry explicitly writes the NOTHING sentinel back on exit: after
exit the attribute is present on the object with value NOTHING, while it
was not present before; the Base-style default read (missing attribute
reads as NOTHING) observes the same value before and after. -/
theorem c9_scopedAttrAssign_absent_attr {ε : Type}
    (reject : String → Val → Bool) (hr : ∀ a v, reject a v = false)
    (kwargs : List (String × Val)) (hnd : (kwargs.map Prod.fst).Nodup)
    (a : String) (ha : a ∈ kwargs.map Prod.fst)
    (o : Obj) (habs : alookup o a = Option.none)
    (body : Obj → Obj × Option ε) :
    pyHasattr o a = false
    ∧ pyHasattr (ScopedAttrAssign.run reject kwargs body o).1 a = true
    ∧ getattrD (ScopedAttrAssign.run reject kwargs body o).1 a = Val.nothing
    ∧ getattrD (ScopedAttrAssign.run reject kwargs body o).1 a
        = getattrD o a := by
  have hget : getattrD o a = Val.nothing := by
    unfold getattrD
    rw [habs]
    rfl
  have halo := scopedAssign_run_alookup reject hr kwargs hnd body o a ha
  refine ⟨?_, ?_, ?_, ?_⟩
  · unfold pyHasattr
    rw [habs]
    rfl
  · unfold pyHasattr
    rw [halo]
    rfl
  · unfold getattrD
    rw [halo, hget]
    rfl
  · unfold getattrD
    rw [halo]
    simp [hget, getattrD]

/-- Witness for C9 at concrete inputs: assigning z on an empty object and
deleting it in the body still leaves z present with value NOTHING after
exit. -/
theorem c9_witness :
    pyHasattr ([] : Obj) "z" = false
    ∧ pyHasattr (ScopedAttrAssign.run (fun _ _ => false) [("z", Val.nat 7)]
        (fun t => (t, (Option.none : Option Unit))) ([] : Obj)).1 "z" = true
    ∧ getattrD (ScopedAttrAssign.run (fun _ _ => false) [("z", Val.nat 7)]
        (fun t => (t, (Option.none : Option Unit))) ([] : Obj)).1 "z"
        = Val.nothing
    ∧ getattrD (ScopedAttrAssign.run (fun _ _ => false) [("z", Val.nat 7)]
        (fun t => (t, (Option.none : Option Unit))) ([] : Obj)).1 "z"
        = getattrD ([] : Obj) "z" :=
  c9_scopedAttrAssign_absent_attr (fun _ _ => false) (fun _ _ => rfl)
    [("z", Val.nat 7)] (by decide) "z" (by decide) [] (by decide)
    (fun t => (t, (Option.none : Option Unit)))

/-- A notification delivered to an observer callback: the observer
identity, the attribute name, the new value and the old value, in the
order AttrObservable.notify__ passes them. -/
structure ObsEvent where
  oid : Nat
  attr : String
  newValue : Val
  oldValue : Val
  deriving DecidableEq, Repr

/-- The state of an AttrObservable: the attribute-name-to-observer-list
map self.__observe, the observer-id-to-attribute-set map
self.__observe_attrs, and the attribute dictionary of the object itself.
Observer identities are modelled as numbers standing for str(id(obs)). -/
structure ObsState where
  observe : List (String × List Nat)
  observeAttrs : List (Nat × List String)
  attrs : Obj
  deriving DecidableEq

/-- AttrObservable.attach_attr__: ensure both map entries exist, add the
attribute to the observer's set, append the observer to the attribute's
list, and, when init is set, emit one notification with the current value
as new and NOTHING as old. -/
def attachAttr (s : ObsState) (oid : Nat) (name : String) (init : Bool) :
    ObsState × List ObsEvent :=
  let oaSet := (alookup s.observeAttrs oid).getD []
  let obsList := (alookup s.observe name).getD []
  let oaSet2 := if name ∈ oaSet then oaSet else oaSet ++ [name]
  let s2 : ObsState :=
    { observe := aset s.observe name (obsList ++ [oid]),
      observeAttrs := aset s.observeAttrs oid oaSet2,
      attrs := s.attrs }
  let evts :=
    if init then [ObsEvent.mk oid name (getattrD s.attrs name) Val.nothing]
    else []
  (s2, evts)

/-- AttrObservable.attach__: when the observer is already known, restrict
the inspected attribute names to the ones not yet subscribed, then attach
each remaining name. -/
def attach (s : ObsState) (oid : Nat) (names : List String) (init : Bool) :
    ObsState × List ObsEvent :=
  let names2 :=
    if (alookup s.observeAttrs oid).isSome
    then names.filter (fun n => !(((alookup s.observeAttrs oid).getD []).contains n))
    else names
  names2.foldl
    (fun acc n =>
      let step := attachAttr acc.1 oid n init
      (step.1, acc.2 ++ step.2))
    (s, [])

/-- AttrObservable.detach_attr__: remove the attribute from the observer's
set, dropping the map entry when the set empties, and remove the first
occurrence of the observer from the attribute's list, dropping the map
entry when the list empties. -/
def detachAttr (s : ObsState) (oid : Nat) (name : String) : ObsState :=
  let s1 : ObsState :=
    match alookup s.observeAttrs oid with
    | Option.some names =>
        let names2 := names.erase name
        if names2.length < 1
        then { s with observeAttrs := aerase s.observeAttrs oid }
        else { s with observeAttrs := aset s.observeAttrs oid names2 }
    | Option.none => s
  match alookup s1.observe name with
  | Option.some obs =>
      let obs2 := obs.erase oid
      if obs2.length < 1
      then { s1 with observe := aerase s1.observe name }
      else { s1 with observe := aset s1.observe name obs2 }
  | Option.none => s1

/-- AttrObservable.detach__: detach the observer from every attribute in a
copy of its subscribed-attribute set; a no-op for an unknown observer. -/
def detach (s : ObsState) (oid : Nat) : ObsState :=
  match alookup s.observeAttrs oid with
  | Option.none => s
  | Option.some names => names.foldl (fun acc n => detachAttr acc oid n) s

/-- AttrObservable.__setattr__: a plain write when the attribute has no
observer list; otherwise write the value and, when the new value differs
from the old one, notify every observer in the list in order. -/
def obsSetattr (s : ObsState) (name : String) (v : Val) :
    ObsState × List ObsEvent :=
  match alookup s.observe name with
  | Option.none => ({ s with attrs := aset s.attrs name v }, [])
  | Option.some observers =>
      let old := getattrD s.attrs name
      let s2 : ObsState := { s with attrs := aset s.attrs name v }
      if v ≠ old
      then (s2, observers.map (fun oid => ObsEvent.mk oid name v old))
      else (s2, [])

/-- Claim C7: attaching the same observer twice through attach__ for the
same attribute leaves exactly one subscription, so a subsequent value
change notifies the observer exactly once; and detach__ removes every
subscription of the observer, after which no attribute write notifies it. -/
theorem c7_attrObserver_idempotent_attach_detach
    (oid : Nat) (name : String) (attrs0 : Obj) (v : Val) :
    alookup (attach (attach (ObsState.mk [] [] attrs0) oid [name] true).1
      oid [name] true).1.observe name = Option.some [oid]
    ∧ (v ≠ getattrD attrs0 name →
        (obsSetattr (attach (attach (ObsState.mk [] [] attrs0) oid [name]
          true).1 oid [name] true).1 name v).2
          = [ObsEvent.mk oid name v (getattrD attrs0 name)])
    ∧ (∀ n w, (obsSetattr
        (detach (attach (attach (ObsState.mk [] [] attrs0) oid [name]
          true).1 oid [name] true).1 oid) n w).2 = []) := by
  have hs1 : (attach (ObsState.mk [] [] attrs0) oid [name] true).1
      = ObsState.mk [(name, [oid])] [(oid, [name])] attrs0 := by
    simp [attach, alookup, attachAttr, aset]
  have hs2 : (attach (ObsState.mk [(name, [oid])] [(oid, [name])] attrs0)
      oid [name] true).1
      = ObsState.mk [(name, [oid])] [(oid, [name])] attrs0 := by
    simp [attach, alookup, List.filter]
  have hs3 : detach (ObsState.mk [(name, [oid])] [(oid, [name])] attrs0) oid
      = ObsState.mk [] [] attrs0 := by
    simp [detach, alookup, detachAttr, List.erase, aerase]
  rw [hs1, hs2]
  refine ⟨?_, ?_, ?_⟩
  · simp [alookup]
  · intro hne
    simp [obsSetattr, alookup, hne]
  · intro n w
    rw [hs3]
    simp [obsSetattr, alookup]

/-- Witness for C7 at concrete inputs: observer 0 attached twice for
attribute a on a fresh observable, a single write of 1 notifies it exactly
once, and after detaching it a further write notifies nobody. -/
theorem c7_witness :
    alookup (attach (attach (ObsState.mk [] [] []) 0 ["a"] true).1
      0 ["a"] true).1.observe "a" = Option.some [0]
    ∧ (obsSetattr (attach (attach (ObsState.mk [] [] []) 0 ["a"]
        true).1 0 ["a"] true).1 "a" (Val.nat 1)).2
        = [ObsEvent.mk 0 "a" (Val.nat 1) (getattrD [] "a")]
    ∧ (obsSetattr (detach (attach (attach (ObsState.mk [] [] []) 0 ["a"]
        true).1 0 ["a"] true).1 0) "b" (Val.nat 2)).2 = [] :=
  ⟨(c7_attrObserver_idempotent_attach_detach 0 "a" [] (Val.nat 1)).1,
   (c7_attrObserver_idempotent_attach_detach 0 "a" [] (Val.nat 1)).2.1
     (by decide),
   (c7_attrObserver_idempotent_attach_detach 0 "a" [] (Val.nat 1)).2.2
     "b" (Val.nat 2)⟩

/-- The gate states a handler's exec_ranks can hold: the Ellipsis literal
(run always), None, the NOTHING sentinel, or an explicit rank list. -/
inductive ExecRanks where
  | ellipsisSentinel
  | pyNone
  | nothingSentinel
  | ranks (rs : List Nat)
  deriving DecidableEq, Repr

/-- is_none_or_nothing from torchslime.utils, restricted to gate values. -/
def isNoneOrNothing : ExecRanks → Bool
  | ExecRanks.pyNone => true
  | ExecRanks.nothingSentinel => true
  | _ => false

/-- The part of a Handler that DistributedLaunch.handler_call consults. -/
structure PyHandler where
  execRanks : ExecRanks
  deriving DecidableEq, Repr

/-- Python exceptions the embedded launch code can raise. -/
inductive PyErr where
  | unboundLocalError
  | typeError
  deriving DecidableEq, Repr

/-- Reading a Python local variable: a name that is assigned anywhere in a
function body is local throughout the body, and reading it before the
assignment has run raises UnboundLocalError. -/
def readLocal (v : Option α) : Except PyErr α :=
  match v with
  | Option.none => Except.error PyErr.unboundLocalError
  | Option.some x => Except.ok x

/-- DistributedLaunch.handler_call from torchslime/core/hooks/launch.py,
embedded together with Python local-variable scoping. The function body is,
in source order: read exec_ranks and run the handler when it is Ellipsis;
read exec_ranks and return when it is None or NOTHING; read the current
rank; assign exec_ranks from handler.get_exec_ranks(); run the handler when
the rank is a member of exec_ranks. Because the only assignment to the
local exec_ranks comes after both gate checks, the first read happens while
the local is still unbound. The Bool result records whether
handler.handle(ctx) ran. -/
def DistributedLaunch.handlerCall (handler : PyHandler) (rank : Nat) :
    Except PyErr Bool := do
  let er ← readLocal (Option.none : Option ExecRanks)
  if er = ExecRanks.ellipsisSentinel then
    return true
  let er2 ← readLocal (Option.none : Option ExecRanks)
  if isNoneOrNothing er2 then
    return false
  let _rankLocal := rank
  let execRanksAssigned := handler.execRanks
  let er3 ← readLocal (Option.some execRanksAssigned)
  match er3 with
  | ExecRanks.ranks rs => return decide (rank ∈ rs)
  | _ => Except.error PyErr.typeError

/-- Claim C2 evaluated on the code: every call of the embedded
DistributedLaunch.handler_call raises UnboundLocalError, whatever the gate
state and the current rank, because the local exec_ranks is read before
its only assignment; in particular the gating decision never completes and
the handler body never runs, contradicting the specified iff-gating. -/
theorem c2_handlerCall_raises_unboundLocal (handler : PyHandler)
    (rank : Nat) :
    DistributedLaunch.handlerCall handler rank
      = Except.error PyErr.unboundLocalError := rfl

/-- Modelled from the spec: the rank-gating decision that section 4.3 and
the Rank gating property describe, with the three gate states kept
distinct. It is what DistributedLaunch.handler_call reads as if its
exec_ranks assignment preceded the checks. -/
def specHandlerCall (handler : PyHandler) (rank : Nat) : Bool :=
  match handler.execRanks with
  | ExecRanks.ellipsisSentinel => true
  | ExecRanks.pyNone => false
  | ExecRanks.nothingSentinel => false
  | ExecRanks.ranks rs => decide (rank ∈ rs)

/-- The specified gate runs the body iff the policy is always or the rank
is an explicit member, and never for the None or NOTHING states; the
buggy source diverges from it on every input. -/
theorem specHandlerCall_gating (handler : PyHandler) (rank : Nat) :
    (specHandlerCall handler rank = true ↔
      (handler.execRanks = ExecRanks.ellipsisSentinel
        ∨ ∃ rs, handler.execRanks = ExecRanks.ranks rs ∧ rank ∈ rs))
    ∧ (isNoneOrNothing handler.execRanks = true →
        specHandlerCall handler rank = false)
    ∧ DistributedLaunch.handlerCall handler rank
        ≠ Except.ok (specHandlerCall handler rank) := by
  obtain ⟨er⟩ := handler
  refine ⟨?_, ?_, ?_⟩
  · cases er with
    | ellipsisSentinel => simp [specHandlerCall]
    | pyNone => simp [specHandlerCall]
    | nothingSentinel => simp [specHandlerCall]
    | ranks rs => simp [specHandlerCall]
  · cases er with
    | ellipsisSentinel => simp [isNoneOrNothing]
    | pyNone => simp [specHandlerCall]
    | nothingSentinel => simp [specHandlerCall]
    | ranks rs => simp [isNoneOrNothing]
  · intro hc
    exact Except.noConfusion hc

/-- Witness for the specified gating at concrete inputs. -/
theorem specHandlerCall_gating_witness :
    specHandlerCall (PyHandler.mk (ExecRanks.ranks [0, 2])) 2 = true :=
  (specHandlerCall_gating (PyHandler.mk (ExecRanks.ranks [0, 2])) 2).1.mpr
    (Or.inr ⟨[0, 2], rfl, by decide⟩)

/-- step_ctx.total, pipeline_ctx.grad_acc and step_ctx.current as
BackwardHandler.handle reads them, plus whether step_ctx.loss is set;
the result is the divisor applied to the reduced loss before backward,
or none when the context check on step_ctx.loss fails and the handler
returns without a backward call. -/
def BackwardHandler.handle (total gradAcc current : Nat)
    (lossPresent : Bool) : Option Nat :=
  if lossPresent then
    let lastSize := total % gradAcc
    Option.some (if lastSize ≤ total - current - 1 then gradAcc else lastSize)
  else Option.none

/-- OptimizerContainer.handle after its children ran: whether an optimizer
step plus zero_grad fires at the given step, requiring the optimizer to be
configured and the step to end an accumulation group or the epoch. -/
def OptimizerContainer.fires (total gradAcc current : Nat)
    (optimizerPresent : Bool) : Bool :=
  optimizerPresent &&
    (((current + 1) % gradAcc == 0) || (current + 1 == total))

/-- Claim C3: with total steps and accumulation factor A, writing last for
total mod A, the divisor scaling the loss at 0-based step i is A exactly
when total - i - 1 is at least last and last otherwise; equivalently, the
steps of the trailing partial group, the i with total - last <= i < total,
are scaled by that group's true size last, and all earlier steps by A. -/
theorem c3_backward_divisor (total A i : Nat) (hA : 0 < A) (hi : i < total) :
    BackwardHandler.handle total A i true
      = Option.some (if total % A ≤ total - i - 1 then A else total % A)
    ∧ (i < total - total % A →
        BackwardHandler.handle total A i true = Option.some A)
    ∧ (total - total % A ≤ i →
        BackwardHandler.handle total A i true = Option.some (total % A)) := by
  have hle : total % A ≤ total := Nat.mod_le total A
  have hlt : total % A < A := Nat.mod_lt total hA
  refine ⟨rfl, ?_, ?_⟩
  · intro hgroup
    unfold BackwardHandler.handle
    simp only [if_true]
    have hcond : total % A ≤ total - i - 1 := by omega
    simp [hcond]
  · intro hgroup
    unfold BackwardHandler.handle
    simp only [if_true]
    by_cases hz : total % A = 0
    · exact absurd hi (by omega)
    · have hcond : ¬ total % A ≤ total - i - 1 := by omega
      simp [hcond]

/-- Witness for C3 at concrete inputs: total 10, A 3, step 9 sits in the
trailing group of size 1 and is scaled by 1; step 4 is scaled by 3. -/
theorem c3_backward_divisor_witness :
    BackwardHandler.handle 10 3 9 true = Option.some (10 % 3)
    ∧ BackwardHandler.handle 10 3 4 true = Option.some 3 :=
  ⟨(c3_backward_divisor 10 3 9 (by decide) (by decide)).2.2 (by decide),
   (c3_backward_divisor 10 3 4 (by decide) (by decide)).2.1 (by decide)⟩

/-- Counterexample to claim C4 as stated: at total 10, A 3, step 7, the
code scales the loss by 3, not by 1 as the claim asserts for steps 7..9. -/
theorem c4_divisor_counterexample :
    BackwardHandler.handle 10 3 7 true = Option.some 3
    ∧ BackwardHandler.handle 10 3 7 true ≠ Option.some 1 := by decide

/-- Claim C4 amended: for total 10 and A 3 the divisor is 3 for steps 0..8
and 1 for step 9 only (the trailing group is the single step 9, of size
last = 1), and the optimizer update plus gradient reset fires exactly
after steps 2, 5, 8 and 9. -/
theorem c4_divisor_and_updates_amended :
    ((List.range 10).map (fun i => BackwardHandler.handle 10 3 i true))
      = [Option.some 3, Option.some 3, Option.some 3, Option.some 3,
         Option.some 3, Option.some 3, Option.some 3, Option.some 3,
         Option.some 3, Option.some 1]
    ∧ ((List.range 10).filter
        (fun i => OptimizerContainer.fires 10 3 i true)) = [2, 5, 8, 9] := by
  decide

/-- itertools.cycle over a non-empty loader, as the infinite stream of its
elements repeated: position k reads element k mod length. The default is
only read when the loader is empty, a case the loop below never reaches. -/
def cycleStream (loader : List β) (d : β) (k : Nat) : β :=
  loader.getD (k % loader.length) d

/-- The loop of StepIterationContainer.handle over the endless enumerated
stream: the body runs for the pair (current, stream k), then the loop
breaks when current + 1 has reached total, else continues with the next
pair. The result lists the pairs the body ran for, in order. -/
def stepIterLoop (total : Nat) (stream : Nat → β) (current k : Nat) :
    List (Nat × β) :=
  if total ≤ current + 1 then [(current, stream k)]
  else (current, stream k) :: stepIterLoop total stream (current + 1) (k + 1)
termination_by total - current
decreasing_by omega

/-- StepIterationContainer.handle: return at once on a None or NOTHING
loader (modelled as Option.none); an empty loader makes cycle yield
nothing, so the loop body never runs; otherwise iterate the enumerated
cycle from the global step offset. -/
def StepIterationContainer.handle :
    Option (List β) → β → Nat → Nat → List (Nat × β)
  | Option.none, _, _, _ => []
  | Option.some l, d, total, start =>
      if l.isEmpty then [] else stepIterLoop total (cycleStream l d) start 0

theorem stepIterLoop_map_fst (total : Nat) (stream : Nat → β) :
    ∀ n current k, total - current ≤ n →
      (stepIterLoop total stream current k).map Prod.fst
        = List.range' current (max (total - current) 1) := by
  intro n
  induction n with
  | zero =>
      intro current k hn
      rw [stepIterLoop]
      have hc : total ≤ current + 1 := by omega
      have hm : max (total - current) 1 = 1 := by omega
      simp [hc, hm]
  | succ m ih =>
      intro current k hn
      rw [stepIterLoop]
      by_cases hc : total ≤ current + 1
      · have hm : max (total - current) 1 = 1 := by omega
        simp [hc, hm]
      · have hrec := ih (current + 1) (k + 1) (by omega)
        obtain ⟨j, hj⟩ : ∃ j, total - current = j + 1 :=
          ⟨total - current - 1, by omega⟩
        have hm : max (j + 1) 1 = j + 1 := by omega
        have hm2 : max (total - (current + 1)) 1 = j := by omega
        simp only [hc, if_false, List.map_cons, hrec, hm2, hj, hm,
          List.range'_succ]

/-- Claim C5: StepIterationContainer with iteration total 5 and start 3
over an infinite cyclic view of a non-empty loader runs its children for
exactly step indices 3 and 4 and stops, never reaching step 5; in general
the loop executes exactly the step indices from start up to total - 1 and
terminates although the cycled stream is endless. -/
theorem c5_stepIteration_terminates (l : List β) (d : β) (hl : l ≠ []) :
    (StepIterationContainer.handle (Option.some l) d 5 3).map Prod.fst
      = [3, 4]
    ∧ (∀ p, p ∈ StepIterationContainer.handle (Option.some l) d 5 3 →
        p.1 ≠ 5)
    ∧ (∀ total start, start < total →
        (StepIterationContainer.handle (Option.some l) d total start).map
          Prod.fst = List.range' start (total - start)) := by
  have hne : l.isEmpty = false := by
    cases l with
    | nil => exact absurd rfl hl
    | cons a t => rfl
  have hgen : ∀ total start, start < total →
      (StepIterationContainer.handle (Option.some l) d total start).map
        Prod.fst = List.range' start (total - start) := by
    intro total start hst
    simp only [StepIterationContainer.handle, hne, Bool.false_eq_true,
      if_false]
    have hm : max (total - start) 1 = total - start := by omega
    rw [stepIterLoop_map_fst total (cycleStream l d) (total - start) start 0
      (by omega), hm]
  refine ⟨?_, ?_, hgen⟩
  · have h5 := hgen 5 3 (by omega)
    simpa using h5
  · intro p hp
    have h5 := hgen 5 3 (by omega)
    have hmem : p.1 ∈ (StepIterationContainer.handle (Option.some l) d
        5 3).map Prod.fst := List.mem_map.mpr ⟨p, hp, rfl⟩
    rw [h5] at hmem
    intro hc
    rw [hc] at hmem
    simp [List.range'] at hmem

/-- Witness for C5 at a concrete loader of one element. -/
theorem c5_witness :
    (StepIterationContainer.handle (Option.some [37]) 0 5 3).map Prod.fst
      = [3, 4]
    ∧ (∀ p, p ∈ StepIterationContainer.handle (Option.some [37]) 0 5 3 →
        p.1 ≠ 5)
    ∧ (∀ total start, start < total →
        (StepIterationContainer.handle (Option.some [37]) 0 total start).map
          Prod.fst = List.range' start (total - start)) :=
  c5_stepIteration_terminates [37] 0 (by decide)

/-- The serialization pair TorchComm owes to pickle: an encoder producing
the byte buffer of an object and the matching decoder. The protocol only
needs that decoding an encoded buffer returns the object. -/
structure Serializer (α : Type) where
  encode : α → List Nat
  decode : List Nat → α

/-- Tensor.resize_ on a one-dimensional byte tensor: truncate to the new
length, or extend it with uninitialized memory, modelled as an arbitrary
junk function of the byte position. -/
def resizeTensor (bytes : List Nat) (n : Nat) (junk : Nat → Nat) :
    List Nat :=
  bytes.take n
    ++ (List.range (n - bytes.length)).map (fun i => junk (bytes.length + i))

/-- TorchComm._transfer_objects: deserialize every received buffer after
truncating it to that sender's recorded true length. -/
def transferObjects (S : Serializer α) (outputTensors : List (List Nat))
    (sizes : List Nat) : List α :=
  (outputTensors.zip sizes).map (fun p => S.decode (p.1.take p.2))

/-- TorchComm.all_gather_object: serialize the local object, all-gather
the true lengths, pad every local buffer to the maximum length (the pad
bytes are whatever resize_ exposes, junk r i for sender r at position i),
all-gather the padded buffers, then truncate and deserialize per sender.
All ranks receive the same gathered data and run the same final loop, so
the computation is per-rank symmetric and is written once. -/
def allGatherObject (S : Serializer α) (junk : Nat → Nat → Nat)
    (objs : List α) : List α :=
  let sizes := objs.map (fun o => (S.encode o).length)
  let maxSize := sizes.foldl Nat.max 0
  let outputTensors :=
    objs.enum.map (fun p => resizeTensor (S.encode p.2) maxSize (junk p.1))
  transferObjects S outputTensors sizes

theorem foldl_max_init_le (l : List Nat) (a : Nat) :
    a ≤ l.foldl Nat.max a := by
  induction l generalizing a with
  | nil => exact Nat.le_refl a
  | cons b t ih =>
      exact Nat.le_trans (Nat.le_max_left a b) (ih (Nat.max a b))

theorem foldl_max_mem_le (l : List Nat) (x : Nat) :
    ∀ (a : Nat), x ∈ l → x ≤ l.foldl Nat.max a := by
  induction l with
  | nil =>
      intro a hx
      cases hx
  | cons b t ih =>
      intro a hx
      rcases List.mem_cons.mp hx with hb | ht
      · subst hb
        exact Nat.le_trans (Nat.le_max_right a x) (foldl_max_init_le t _)
      · exact ih _ ht

theorem resizeTensor_take (b : List Nat) (m : Nat) (j : Nat → Nat)
    (h : b.length ≤ m) : (resizeTensor b m j).take b.length = b := by
  unfold resizeTensor
  rw [List.take_of_length_le h]
  exact List.take_left b _

theorem transferObjects_roundtrip (S : Serializer α)
    (hrt : ∀ o, S.decode (S.encode o) = o) (junk : Nat → Nat → Nat)
    (objs : List α) (m : Nat)
    (hm : ∀ o ∈ objs, (S.encode o).length ≤ m) :
    transferObjects S
      (objs.enum.map (fun p => resizeTensor (S.encode p.2) m (junk p.1)))
      (objs.map (fun o => (S.encode o).length)) = objs := by
  apply List.ext_getElem
  · simp [transferObjects]
  · intro i h1 h2
    simp only [transferObjects, List.getElem_map, List.getElem_zip,
      List.getElem_enum]
    rw [resizeTensor_take _ _ _ (hm _ (List.getElem_mem h2))]
    exact hrt _

/-- Claim C6: for any serializer whose decode inverts encode and any group
of ranks submitting arbitrary objects, all_gather_object returns on every
rank the submitted objects in rank order, whatever the size disparity of
the encoded buffers and whatever junk the padding exposes, because every
received buffer is truncated back to the sender's recorded length before
deserialization. -/
theorem c6_allGatherObject_roundtrip (S : Serializer α)
    (hrt : ∀ o, S.decode (S.encode o) = o) (junk : Nat → Nat → Nat)
    (objs : List α) : allGatherObject S junk objs = objs := by
  unfold allGatherObject
  apply transferObjects_roundtrip S hrt junk objs
  intro o ho
  exact foldl_max_mem_le _ _ 0 (List.mem_map_of_mem _ ho)

/-- A concrete executable serializer for the witnesses: a number encodes
as that many one-bytes, so ranks produce buffers of very different sizes
and the smallest payload is empty. -/
def natUnarySerializer : Serializer Nat :=
  Serializer.mk (fun n => List.replicate n 1) (fun l => l.length)

/-- Witness for C6 at concrete inputs: three ranks submit 2, 0 and 5, the
encoded sizes are 2, 0 and 5 bytes, padding fills with byte 9, and every
rank still decodes the exact submissions in rank order. -/
theorem c6_witness :
    allGatherObject natUnarySerializer (fun _ _ => 9) [2, 0, 5]
      = [2, 0, 5] :=
  c6_allGatherObject_roundtrip natUnarySerializer
    (fun o => by simp [natUnarySerializer]) (fun _ _ => 9) [2, 0, 5]

/-- The collective calls a rank issues inside gather_object, in order: the
all-gather of the one-element size tensors, then the gather of the padded
payload tensors toward the destination rank. -/
inductive CollectiveOp where
  | allGatherSizes (worldSize : Nat)
  | gatherPayload (payloadLen dst : Nat)
  deriving DecidableEq, Repr

/-- The value a rank gets back from gather_object: the bare return on a
non-destination rank is Python None, distinct from the NOTHING sentinel
and from an object list. -/
inductive PyRet (α : Type) where
  | pyNone
  | nothingSentinel
  | objects (xs : List α)
  deriving DecidableEq, Repr

/-- TorchComm.gather_object for one rank: every rank serializes, joins the
size all-gather, pads its buffer and joins the payload gather (the calls
are recorded in the trace); the output buffers exist only on the
destination rank, every other rank then returns None, and the destination
truncates and deserializes every received buffer. -/
def TorchComm.gatherObject (S : Serializer α) (junk : Nat → Nat → Nat)
    (objs : List α) (r dst : Nat) : List CollectiveOp × PyRet α :=
  let sizes := objs.map (fun o => (S.encode o).length)
  let maxSize := sizes.foldl Nat.max 0
  let outputTensors : Option (List (List Nat)) :=
    if r = dst
    then Option.some
      (objs.enum.map (fun p => resizeTensor (S.encode p.2) maxSize (junk p.1)))
    else Option.none
  let trace := [CollectiveOp.allGatherSizes objs.length,
                CollectiveOp.gatherPayload maxSize dst]
  if r ≠ dst then (trace, PyRet.pyNone)
  else (trace, PyRet.objects (transferObjects S (outputTensors.getD []) sizes))

/-- Claim C10: gather_object returns the fully deserialized rank-ordered
object list only on the destination rank; every other rank returns Python
None, not the NOTHING sentinel and not a partial list; and every rank
issues the same collective calls, so non-destination ranks still join the
length negotiation and the gather. -/
theorem c10_gatherObject_dst_only (S : Serializer α)
    (hrt : ∀ o, S.decode (S.encode o) = o) (junk : Nat → Nat → Nat)
    (objs : List α) (r r2 dst : Nat) :
    (r ≠ dst → (TorchComm.gatherObject S junk objs r dst).2 = PyRet.pyNone)
    ∧ (r = dst → (TorchComm.gatherObject S junk objs r dst).2
        = PyRet.objects objs)
    ∧ (TorchComm.gatherObject S junk objs r dst).1
        = (TorchComm.gatherObject S junk objs r2 dst).1 := by
  refine ⟨?_, ?_, ?_⟩
  · intro h
    simp [TorchComm.gatherObject, h]
  · intro h
    subst h
    have hrt2 := transferObjects_roundtrip S hrt junk objs
      ((objs.map (fun o => (S.encode o).length)).foldl Nat.max 0)
      (fun o ho => foldl_max_mem_le _ _ 0 (List.mem_map_of_mem _ ho))
    simp [TorchComm.gatherObject, hrt2]
  · by_cases h1 : r = dst <;> by_cases h2 : r2 = dst <;>
      simp [TorchComm.gatherObject, h1, h2]

/-- Witness for C10 at concrete inputs: two ranks with objects 3 and 1,
destination 0; rank 1 gets None, rank 0 gets the list, and both ranks
issue the same two collective calls. -/
theorem c10_witness :
    (TorchComm.gatherObject natUnarySerializer (fun _ _ => 9) [3, 1] 1 0).2
      = PyRet.pyNone
    ∧ (TorchComm.gatherObject natUnarySerializer (fun _ _ => 9) [3, 1] 0 0).2
      = PyRet.objects [3, 1]
    ∧ (TorchComm.gatherObject natUnarySerializer (fun _ _ => 9) [3, 1] 1 0).1
      = (TorchComm.gatherObject natUnarySerializer (fun _ _ => 9) [3, 1] 0 0).1 :=
  ⟨(c10_gatherObject_dst_only natUnarySerializer
      (fun o => by simp [natUnarySerializer]) (fun _ _ => 9) [3, 1] 1 0 0).1
      (by decide),
   (c10_gatherObject_dst_only natUnarySerializer
      (fun o => by simp [natUnarySerializer]) (fun _ _ => 9) [3, 1] 0 1 0).2.1
      rfl,
   (c10_gatherObject_dst_only natUnarySerializer
      (fun o => by simp [natUnarySerializer]) (fun _ _ => 9) [3, 1] 1 0 0).2.2⟩

end TorchSlime
